import Mathlib

/-!
# Verification of the copy-notes clipboard organizer

A shallow embedding of the non-UI core of `src/copy-notes.tsx`: the bucket
store, the history reconciliation performed on activation (`init`), and the
mutation operations of the main `Command` component.  Host side effects are
made explicit:

* `LocalStorage` becomes a `Storage` record carried inside the application
  state; `loadHistory`/`saveHistory` read and write `Storage.history`,
  `loadBuckets`/`saveBuckets` read and write `Storage.buckets` (an `Option`,
  since nothing may be stored yet).
* Clipboard reads feed `init` a list `fresh` of the already trimmed,
  non-empty texts obtained by the sequential offset scan; clipboard
  writes (`Clipboard.copy`/`Clipboard.paste`) have no effect on the state
  and are dropped.
* The `confirmAlert` result of the confirmation-gated operations becomes an
  explicit `confirmed : Bool` argument; operations that show no alert take
  no such argument.

React state setters become field updates on `AppState`.
-/

namespace CopyNotes

/-- `interface Bucket { id: number; name: string; items: string[] }`. -/
structure Bucket where
  id : Nat
  name : String
  items : List String
deriving Repr, DecidableEq

/-- The two `LocalStorage` keys: the persisted history list
(`copy-notes-history`) and the persisted bucket array (`copy-notes-buckets`,
`none` when nothing has been stored yet). -/
structure Storage where
  history : List String
  buckets : Option (List Bucket)
deriving Repr, DecidableEq

/-- The in-memory React state of the `Command` component together with the
persisted storage it reads and writes. -/
structure AppState where
  uncategorized : List String
  buckets : List Bucket
  selectedItems : List String
  selectionMode : Bool
  storage : Storage
deriving Repr, DecidableEq

/-- `const BUCKET_COUNT = 5`. -/
def BUCKET_COUNT : Nat := 5

/-- `defaultBuckets()`: 5 buckets with `id = i`, empty name, empty items. -/
def defaultBuckets : List Bucket :=
  (List.range BUCKET_COUNT).map (fun i => { id := i, name := "", items := [] })

/-- The `while (parsed.length < BUCKET_COUNT) parsed.push({id: parsed.length,
name: "", items: []})` loop of `loadBuckets`, written with the explicit fuel
`BUCKET_COUNT` (the loop adds one bucket per iteration and runs at most
`BUCKET_COUNT` times). -/
def padBucketsAux : Nat → List Bucket → List Bucket
  | 0, parsed => parsed
  | fuel + 1, parsed =>
    if parsed.length < BUCKET_COUNT then
      padBucketsAux fuel (parsed ++ [{ id := parsed.length, name := "", items := [] }])
    else parsed

/-- `loadBuckets()`: default buckets when nothing is stored; otherwise pad the
parsed array to `BUCKET_COUNT` entries and truncate with `slice(0, BUCKET_COUNT)`. -/
def loadBuckets (stored : Option (List Bucket)) : List Bucket :=
  match stored with
  | none => defaultBuckets
  | some parsed => (padBucketsAux BUCKET_COUNT parsed).take BUCKET_COUNT

/-- One step of the merge loop in `init`:
`if (!merged.includes(item)) merged.push(item)`. -/
def mergeStep (merged : List String) (item : String) : List String :=
  if merged.contains item then merged else merged ++ [item]

/-- The merge in `init`: start from the fresh clipboard entries and append
each persisted entry not already present. -/
def mergeHistory (fresh persisted : List String) : List String :=
  persisted.foldl mergeStep fresh

/-- `init()` after the clipboard scan: merge `fresh` with the persisted
history, persist the merged list (before any bucket-based pruning), load the
buckets, and display the merged entries not present in any bucket.  The
normalized bucket array is not written back to storage. -/
def init (fresh : List String) (st : Storage) : AppState :=
  let merged := mergeHistory fresh st.history
  let storedBuckets := loadBuckets st.buckets
  let bucketed := storedBuckets.flatMap (fun b => b.items)
  { uncategorized := merged.filter (fun t => !(bucketed.contains t)),
    buckets := storedBuckets,
    selectedItems := [],
    selectionMode := false,
    storage := { history := merged, buckets := st.buckets } }

/-- `moveToExistingBucket(text, bucketId)`: prepend `text` to the target
bucket's items after filtering out prior occurrences, drop `text` from the
in-memory uncategorized list, filter it out of the persisted history, and
save the updated buckets. -/
def moveToExistingBucket (text : String) (bucketId : Nat) (s : AppState) : AppState :=
  let updated := s.buckets.map (fun b =>
    if b.id = bucketId then { b with items := text :: b.items.filter (fun i => i != text) } else b)
  { s with
    buckets := updated,
    uncategorized := s.uncategorized.filter (fun i => i != text),
    storage := { history := s.storage.history.filter (fun i => i != text),
                 buckets := some updated } }

/-- `moveToNewBucket(text, bucketId, name)`: as `moveToExistingBucket` but
also sets the target bucket's name. -/
def moveToNewBucket (text : String) (bucketId : Nat) (name : String) (s : AppState) : AppState :=
  let updated := s.buckets.map (fun b =>
    if b.id = bucketId then
      { b with name := name, items := text :: b.items.filter (fun i => i != text) }
    else b)
  { s with
    buckets := updated,
    uncategorized := s.uncategorized.filter (fun i => i != text),
    storage := { history := s.storage.history.filter (fun i => i != text),
                 buckets := some updated } }

/-- `renameBucket(bucketId, name)`: overwrite the name only and save. -/
def renameBucket (bucketId : Nat) (name : String) (s : AppState) : AppState :=
  let updated := s.buckets.map (fun b => if b.id = bucketId then { b with name := name } else b)
  { s with buckets := updated, storage := { s.storage with buckets := some updated } }

/-- `moveBulkToExistingBucket(bucketId)`: prepend the selected texts to the
target bucket's items after filtering out selected occurrences, drop them
from the in-memory uncategorized list, clear the selection, and save the
buckets.  The persisted history is not touched and `selectionMode` is left
unchanged. -/
def moveBulkToExistingBucket (bucketId : Nat) (s : AppState) : AppState :=
  let texts := s.selectedItems
  let updated := s.buckets.map (fun b =>
    if b.id = bucketId then
      { b with items := texts ++ b.items.filter (fun i => !(s.selectedItems.contains i)) }
    else b)
  { s with
    buckets := updated,
    uncategorized := s.uncategorized.filter (fun i => !(s.selectedItems.contains i)),
    selectedItems := [],
    storage := { s.storage with buckets := some updated } }

/-- `moveBulkToNewBucket(bucketId, name)`: as `moveBulkToExistingBucket` but
also sets the target bucket's name. -/
def moveBulkToNewBucket (bucketId : Nat) (name : String) (s : AppState) : AppState :=
  let texts := s.selectedItems
  let updated := s.buckets.map (fun b =>
    if b.id = bucketId then
      { b with name := name,
               items := texts ++ b.items.filter (fun i => !(s.selectedItems.contains i)) }
    else b)
  { s with
    buckets := updated,
    uncategorized := s.uncategorized.filter (fun i => !(s.selectedItems.contains i)),
    selectedItems := [],
    storage := { s.storage with buckets := some updated } }

/-- `removeFromBucket(text, bucketId)`: delete `text` from the bucket's
items, prepend it to the in-memory uncategorized list, and save the buckets.
No history read or write occurs. -/
def removeFromBucket (text : String) (bucketId : Nat) (s : AppState) : AppState :=
  let updated := s.buckets.map (fun b =>
    if b.id = bucketId then { b with items := b.items.filter (fun i => i != text) } else b)
  { s with
    buckets := updated,
    uncategorized := text :: s.uncategorized,
    storage := { s.storage with buckets := some updated } }

/-- `deleteEntry(text)`: gated by `confirmAlert`; on decline it returns with
no state change, on confirm it drops `text` from the in-memory uncategorized
list and filters it out of the persisted history.  Buckets are untouched. -/
def deleteEntry (confirmed : Bool) (text : String) (s : AppState) : AppState :=
  if !confirmed then s
  else
    { s with
      uncategorized := s.uncategorized.filter (fun i => i != text),
      storage := { s.storage with history := s.storage.history.filter (fun i => i != text) } }

/-- `deleteBucket(bucketId)`: gated by `confirmAlert`; on decline it returns
with no state change, on confirm it clears the slot's name and items (the
`id` is kept by the `map`) and saves the buckets. -/
def deleteBucket (confirmed : Bool) (bucketId : Nat) (s : AppState) : AppState :=
  if !confirmed then s
  else
    let updated := s.buckets.map (fun b =>
      if b.id = bucketId then { b with name := "", items := [] } else b)
    { s with buckets := updated, storage := { s.storage with buckets := some updated } }

/-- `deleteEntryFromBucket(text, bucketId)`: no confirmation alert; filters
`text` out of the bucket's items and out of the persisted history, then
saves both. -/
def deleteEntryFromBucket (text : String) (bucketId : Nat) (s : AppState) : AppState :=
  let updated := s.buckets.map (fun b =>
    if b.id = bucketId then { b with items := b.items.filter (fun i => i != text) } else b)
  { s with
    buckets := updated,
    storage := { history := s.storage.history.filter (fun i => i != text),
                 buckets := some updated } }

/-- `pasteSelected()` of the main `Command` component: pastes the joined
selection (an external clipboard effect) and clears `selectedItems`.
`selectionMode` is not reset. -/
def pasteSelected (s : AppState) : AppState :=
  { s with selectedItems := [] }

/-! Concrete storages, states and bucket arrays used to instantiate the
claim theorems and to exhibit counterexamples. -/

/-- Storage for the C1 counterexample and witness: a persisted bucket already
holds `"B"`, and `"B"` is then observed again on the clipboard. -/
def stC1 : Storage := { history := ["C"], buckets := some [⟨0, "W", ["B"]⟩] }

/-- A generic mid-session state used to instantiate the C1 theorem's
mutation conjuncts. -/
def sC1 : AppState :=
  { uncategorized := ["A", "X"], buckets := defaultBuckets, selectedItems := ["A"],
    selectionMode := false, storage := { history := ["A", "X"], buckets := none } }

/-- A selection-mode state with `"A"` both selected and already present in
bucket 0, used in the C2 theorems. -/
def sC2 : AppState :=
  { uncategorized := ["A", "C", "X"],
    buckets := [⟨0, "W", ["B", "A"]⟩, ⟨1, "", []⟩, ⟨2, "", []⟩, ⟨3, "", []⟩, ⟨4, "", []⟩],
    selectedItems := ["A", "C"], selectionMode := true,
    storage := { history := ["A", "C", "X"],
                 buckets := some [⟨0, "W", ["B", "A"]⟩, ⟨1, "", []⟩, ⟨2, "", []⟩, ⟨3, "", []⟩,
                   ⟨4, "", []⟩] } }

/-- A selection-mode state used in the C4 theorems. -/
def sC4 : AppState :=
  { uncategorized := ["A", "C"], buckets := defaultBuckets, selectedItems := ["A"],
    selectionMode := true, storage := { history := ["A", "C"], buckets := none } }

/-- A state whose bucket 0 already contains the text about to be moved,
used in the C5 witness. -/
def sC5 : AppState :=
  { uncategorized := ["X", "A"],
    buckets := [⟨0, "W", ["B", "A"]⟩, ⟨1, "", []⟩, ⟨2, "", []⟩, ⟨3, "", []⟩, ⟨4, "", []⟩],
    selectedItems := [], selectionMode := false,
    storage := { history := ["X", "A"],
                 buckets := some [⟨0, "W", ["B", "A"]⟩, ⟨1, "", []⟩, ⟨2, "", []⟩, ⟨3, "", []⟩,
                   ⟨4, "", []⟩] } }

/-- A state where `"A"` sits in two buckets, used in the C6 witness to show
only the target bucket is rewritten. -/
def sC6 : AppState :=
  { uncategorized := ["A", "X"],
    buckets := [⟨0, "W", ["B", "A"]⟩, ⟨1, "Y", ["A"]⟩, ⟨2, "", []⟩, ⟨3, "", []⟩, ⟨4, "", []⟩],
    selectedItems := [], selectionMode := false,
    storage := { history := ["A", "X"],
                 buckets := some [⟨0, "W", ["B", "A"]⟩, ⟨1, "Y", ["A"]⟩, ⟨2, "", []⟩, ⟨3, "", []⟩,
                   ⟨4, "", []⟩] } }

/-- A stored bucket array of length 3 (with non-canonical ids, which the
padding does not touch), used in the C7 witness. -/
def pC7 : List Bucket := [⟨7, "N", ["x"]⟩, ⟨8, "M", []⟩, ⟨9, "P", []⟩]

/-- A 5-bucket state with a named, non-empty bucket 0, used in the C8
witness. -/
def sC8 : AppState :=
  { uncategorized := ["A"],
    buckets := [⟨0, "W", ["B"]⟩, ⟨1, "", []⟩, ⟨2, "", []⟩, ⟨3, "", []⟩, ⟨4, "", []⟩],
    selectedItems := [], selectionMode := false,
    storage := { history := ["A"],
                 buckets := some [⟨0, "W", ["B"]⟩, ⟨1, "", []⟩, ⟨2, "", []⟩, ⟨3, "", []⟩,
                   ⟨4, "", []⟩] } }

/-- A state with `"A"` inside bucket 1, used in the C9 witness. -/
def sC9 : AppState :=
  { uncategorized := ["X"],
    buckets := [⟨0, "W", ["B"]⟩, ⟨1, "Y", ["A", "B"]⟩, ⟨2, "", []⟩, ⟨3, "", []⟩, ⟨4, "", []⟩],
    selectedItems := [], selectionMode := false,
    storage := { history := ["X", "A"],
                 buckets := some [⟨0, "W", ["B"]⟩, ⟨1, "Y", ["A", "B"]⟩, ⟨2, "", []⟩, ⟨3, "", []⟩,
                   ⟨4, "", []⟩] } }

/-- A state with `"A"` inside bucket 0 and still in the persisted history,
used in the C10 witness. -/
def sC10 : AppState :=
  { uncategorized := ["X"],
    buckets := [⟨0, "W", ["A", "B"]⟩, ⟨1, "", []⟩, ⟨2, "", []⟩, ⟨3, "", []⟩, ⟨4, "", []⟩],
    selectedItems := [], selectionMode := false,
    storage := { history := ["A", "X"],
                 buckets := some [⟨0, "W", ["A", "B"]⟩, ⟨1, "", []⟩, ⟨2, "", []⟩, ⟨3, "", []⟩,
                   ⟨4, "", []⟩] } }

/-! Helper lemmas shared by the claim theorems. -/

/-- Structure of the merge loop: the result is the accumulator followed by an
order-preserving, duplicate-free selection of the persisted entries not
already in the accumulator. -/
theorem foldl_mergeStep_structure (persisted : List String) :
    ∀ acc : List String, ∃ rest,
      persisted.foldl mergeStep acc = acc ++ rest ∧
      rest.Sublist persisted ∧ (∀ x ∈ rest, x ∉ acc) ∧ rest.Nodup := by
  induction persisted with
  | nil =>
    intro acc
    exact ⟨[], by simp, List.Sublist.refl _, by simp, List.nodup_nil⟩
  | cons item tl ih =>
    intro acc
    by_cases h : item ∈ acc
    · obtain ⟨rest, h1, h2, h3, h4⟩ := ih acc
      have hs : mergeStep acc item = acc := by simp [mergeStep, h]
      exact ⟨rest, by simpa [hs] using h1, h2.cons _, h3, h4⟩
    · obtain ⟨rest, h1, h2, h3, h4⟩ := ih (acc ++ [item])
      have hs : mergeStep acc item = acc ++ [item] := by simp [mergeStep, h]
      refine ⟨item :: rest, ?_, h2.cons₂ _, ?_, ?_⟩
      · simpa [hs, List.append_assoc] using h1
      · intro x hx
        rcases List.mem_cons.mp hx with rfl | hx
        · exact h
        · exact fun hxa => h3 x hx (List.mem_append_left _ hxa)
      · refine List.nodup_cons.mpr ⟨fun hir => ?_, h4⟩
        exact h3 item hir (List.mem_append_right _ (List.mem_singleton_self _))

/-- Closed form of the padding loop: with enough fuel it appends empty
buckets whose ids continue from the current length up to `BUCKET_COUNT`. -/
theorem padBucketsAux_eq (fuel : Nat) :
    ∀ parsed : List Bucket, BUCKET_COUNT - parsed.length ≤ fuel →
      padBucketsAux fuel parsed =
        parsed ++ (List.range' parsed.length (BUCKET_COUNT - parsed.length)).map
          (fun i => { id := i, name := "", items := [] }) := by
  induction fuel with
  | zero =>
    intro parsed h
    have h5 : BUCKET_COUNT ≤ parsed.length := by omega
    simp [padBucketsAux, Nat.sub_eq_zero_of_le h5]
  | succ n ih =>
    intro parsed h
    by_cases hlt : parsed.length < BUCKET_COUNT
    · have hsub : BUCKET_COUNT - parsed.length = (BUCKET_COUNT - (parsed.length + 1)) + 1 := by
        omega
      have hfuel :
          BUCKET_COUNT -
            (parsed ++ [({ id := parsed.length, name := "", items := [] } : Bucket)]).length
              ≤ n := by
        simp only [List.length_append, List.length_cons, List.length_nil]
        omega
      rw [padBucketsAux, if_pos hlt, ih _ hfuel]
      rw [hsub, List.range'_succ]
      simp [List.length_append]
    · have h5 : BUCKET_COUNT ≤ parsed.length := Nat.not_lt.mp hlt
      simp [padBucketsAux, hlt, Nat.sub_eq_zero_of_le h5]

/-! The claim theorems. -/

/-- C1 (corrected).  What actually holds around the history/bucket
separation: after the on-activation load, the displayed (in-memory)
uncategorized list contains no value present in any loaded bucket's items;
the single move and the confirmed delete filter the text out of the
persisted history; but the bulk move leaves the persisted history unchanged
(so, together with `init` persisting the merged history before any pruning,
the persisted list can retain bucketed values). -/
theorem history_bucket_separation (fresh : List String) (st : Storage) (s : AppState)
    (text : String) (bucketId : Nat) :
    ((init fresh st).uncategorized.all (fun t =>
        (init fresh st).buckets.all (fun b => !(b.items.contains t))) = true) ∧
    (moveToExistingBucket text bucketId s).storage.history
      = s.storage.history.filter (fun i => i != text) ∧
    text ∉ (moveToExistingBucket text bucketId s).storage.history ∧
    (moveBulkToExistingBucket bucketId s).storage.history = s.storage.history ∧
    (deleteEntry true text s).storage.history
      = s.storage.history.filter (fun i => i != text) := by
  refine ⟨?_, rfl, ?_, rfl, rfl⟩
  · simp only [init, List.all_eq_true]
    intro t ht b hb
    have h1 := (List.mem_filter.mp ht).2
    simp only [List.elem_eq_mem, Bool.not_eq_true', decide_eq_false_iff_not, List.mem_flatMap,
      not_exists, not_and] at h1
    simp only [List.elem_eq_mem, Bool.not_eq_true', decide_eq_false_iff_not]
    exact h1 b hb
  · simp [moveToExistingBucket, List.mem_filter]

/-- C1, counterexample to the claim as stated: `init` persists the merged
history before pruning bucketed items, so after activation the persisted
history holds `"B"` even though a bucket holds `"B"` as well. -/
theorem history_bucket_separation_cex :
    "B" ∈ (init ["B"] stC1).storage.history ∧
    "B" ∈ ((init ["B"] stC1).buckets.flatMap (fun b => b.items)) := by decide

/-- C1, witness: the amended statement instantiated at concrete inputs. -/
theorem history_bucket_separation_witness :
    ((init ["B"] stC1).uncategorized.all (fun t =>
        (init ["B"] stC1).buckets.all (fun b => !(b.items.contains t))) = true) ∧
    (moveToExistingBucket "A" 0 sC1).storage.history
      = sC1.storage.history.filter (fun i => i != "A") ∧
    "A" ∉ (moveToExistingBucket "A" 0 sC1).storage.history ∧
    (moveBulkToExistingBucket 0 sC1).storage.history = sC1.storage.history ∧
    (deleteEntry true "A" sC1).storage.history
      = sC1.storage.history.filter (fun i => i != "A") :=
  history_bucket_separation ["B"] stC1 sC1 "A" 0

/-- C2 (corrected).  Bulk move matches single move on the in-memory state:
for a duplicate-free selection, every selected text ends up exactly once in
the target bucket's items, the selected texts are removed from the in-memory
uncategorized list, and the selection set is emptied — for the existing- and
the new-bucket variants alike.  Unlike the single move, however, the bulk
move leaves the persisted history unchanged. -/
theorem moveBulk_spec (s : AppState) (bucketId : Nat) (name : String) (b : Bucket)
    (t : String) (hb : b ∈ s.buckets) (hid : b.id = bucketId)
    (hnd : s.selectedItems.Nodup) (ht : t ∈ s.selectedItems) :
    { b with items := s.selectedItems
        ++ b.items.filter (fun i => !(s.selectedItems.contains i)) }
      ∈ (moveBulkToExistingBucket bucketId s).buckets ∧
    (s.selectedItems ++ b.items.filter (fun i => !(s.selectedItems.contains i))).count t = 1 ∧
    (moveBulkToExistingBucket bucketId s).uncategorized
      = s.uncategorized.filter (fun i => !(s.selectedItems.contains i)) ∧
    t ∉ (moveBulkToExistingBucket bucketId s).uncategorized ∧
    (moveBulkToExistingBucket bucketId s).selectedItems = [] ∧
    (moveBulkToExistingBucket bucketId s).storage.history = s.storage.history ∧
    { b with name := name,
             items := s.selectedItems
               ++ b.items.filter (fun i => !(s.selectedItems.contains i)) }
      ∈ (moveBulkToNewBucket bucketId name s).buckets ∧
    (moveBulkToNewBucket bucketId name s).uncategorized
      = s.uncategorized.filter (fun i => !(s.selectedItems.contains i)) ∧
    (moveBulkToNewBucket bucketId name s).selectedItems = [] ∧
    (moveBulkToNewBucket bucketId name s).storage.history = s.storage.history := by
  have hcount :
      (s.selectedItems ++ b.items.filter (fun i => !(s.selectedItems.contains i))).count t
        = 1 := by
    rw [List.count_append]
    have h1 : s.selectedItems.count t = 1 := List.count_eq_one_of_mem hnd ht
    have h2 : (b.items.filter (fun i => !(s.selectedItems.contains i))).count t = 0 := by
      rw [List.count_eq_zero]
      intro hmem
      have := (List.mem_filter.mp hmem).2
      simp only [List.elem_eq_mem, Bool.not_eq_true', decide_eq_false_iff_not] at this
      exact this ht
    omega
  refine ⟨?_, hcount, rfl, ?_, rfl, rfl, ?_, rfl, rfl, rfl⟩
  · show _ ∈ s.buckets.map (fun bb =>
      if bb.id = bucketId then
        { bb with items := s.selectedItems
            ++ bb.items.filter (fun i => !(s.selectedItems.contains i)) }
      else bb)
    have := List.mem_map_of_mem (fun bb =>
      if bb.id = bucketId then
        { bb with items := s.selectedItems
            ++ bb.items.filter (fun i => !(s.selectedItems.contains i)) }
      else bb) hb
    simpa [hid] using this
  · show t ∉ s.uncategorized.filter (fun i => !(s.selectedItems.contains i))
    intro hmem
    have := (List.mem_filter.mp hmem).2
    simp only [List.elem_eq_mem, Bool.not_eq_true', decide_eq_false_iff_not] at this
    exact this ht
  · show _ ∈ s.buckets.map (fun bb =>
      if bb.id = bucketId then
        { bb with name := name,
                  items := s.selectedItems
                    ++ bb.items.filter (fun i => !(s.selectedItems.contains i)) }
      else bb)
    have := List.mem_map_of_mem (fun bb =>
      if bb.id = bucketId then
        { bb with name := name,
                  items := s.selectedItems
                    ++ bb.items.filter (fun i => !(s.selectedItems.contains i)) }
      else bb) hb
    simpa [hid] using this

/-- C2, counterexample to the claim as stated: after a bulk move the moved
text `"A"` sits in a bucket yet is still present, unfiltered, in the
persisted history (the claim demands its removal from the persisted copy). -/
theorem moveBulk_history_cex :
    "A" ∈ sC2.selectedItems ∧
    "A" ∈ ((moveBulkToExistingBucket 0 sC2).buckets.flatMap (fun b => b.items)) ∧
    (moveBulkToExistingBucket 0 sC2).storage.history = ["A", "C", "X"] ∧
    "A" ∈ (moveBulkToExistingBucket 0 sC2).storage.history := by decide

/-- C2, witness: the amended statement instantiated at `sC2`. -/
theorem moveBulk_spec_witness :
    (⟨0, "W", ["A", "C", "B"]⟩ : Bucket) ∈ (moveBulkToExistingBucket 0 sC2).buckets ∧
    (["A", "C", "B"] : List String).count "A" = 1 ∧
    (moveBulkToExistingBucket 0 sC2).uncategorized = ["X"] ∧
    "A" ∉ (moveBulkToExistingBucket 0 sC2).uncategorized ∧
    (moveBulkToExistingBucket 0 sC2).selectedItems = [] ∧
    (moveBulkToExistingBucket 0 sC2).storage.history = sC2.storage.history ∧
    (⟨0, "N", ["A", "C", "B"]⟩ : Bucket) ∈ (moveBulkToNewBucket 0 "N" sC2).buckets ∧
    (moveBulkToNewBucket 0 "N" sC2).uncategorized = ["X"] ∧
    (moveBulkToNewBucket 0 "N" sC2).selectedItems = [] ∧
    (moveBulkToNewBucket 0 "N" sC2).storage.history = sC2.storage.history :=
  moveBulk_spec sC2 0 "N" ⟨0, "W", ["B", "A"]⟩ "A" (by decide) (by decide) (by decide) (by decide)

/-- C3 (corrected).  For a duplicate-free fresh list the merged history is
the fresh entries (in read order) followed by an order-preserving selection
of the persisted entries not present among the fresh ones, and it contains
no value twice; the spec's merge scenario holds.  (Without the
duplicate-free hypothesis a fresh duplicate survives into the merge, see the
counterexample.) -/
theorem mergeHistory_spec (fresh persisted : List String) (hf : fresh.Nodup) :
    (mergeHistory fresh persisted).take fresh.length = fresh ∧
    ((mergeHistory fresh persisted).drop fresh.length).Sublist persisted ∧
    ((mergeHistory fresh persisted).drop fresh.length).all
      (fun x => !(fresh.contains x)) = true ∧
    (mergeHistory fresh persisted).Nodup ∧
    mergeHistory ["A", "B"] ["B", "C"] = ["A", "B", "C"] := by
  obtain ⟨rest, h1, h2, h3, h4⟩ := foldl_mergeStep_structure persisted fresh
  rw [mergeHistory, h1]
  refine ⟨List.take_left _ _, ?_, ?_, ?_, by decide⟩
  · rw [List.drop_left]; exact h2
  · rw [List.drop_left]
    simp only [List.all_eq_true]
    intro x hx
    simpa using h3 x hx
  · exact List.nodup_append.mpr ⟨hf, h4, fun a ha hr => h3 a hr ha⟩

/-- C3, counterexample to the claim as stated: a fresh list with a repeated
value produces a merged history containing that value twice. -/
theorem mergeHistory_dup_cex :
    mergeHistory ["A", "A"] [] = ["A", "A"] ∧ ¬ (mergeHistory ["A", "A"] []).Nodup := by decide

/-- C3, witness: the amended statement at the spec's scenario
(fresh `["A","B"]`, persisted `["B","C"]`). -/
theorem mergeHistory_spec_witness :
    (["A", "B"] : List String).Nodup ∧
    ((mergeHistory ["A", "B"] ["B", "C"]).take 2 = ["A", "B"] ∧
     ((mergeHistory ["A", "B"] ["B", "C"]).drop 2).Sublist ["B", "C"] ∧
     ((mergeHistory ["A", "B"] ["B", "C"]).drop 2).all
       (fun x => !((["A", "B"] : List String).contains x)) = true ∧
     (mergeHistory ["A", "B"] ["B", "C"]).Nodup ∧
     mergeHistory ["A", "B"] ["B", "C"] = ["A", "B", "C"]) :=
  ⟨by decide, mergeHistory_spec ["A", "B"] ["B", "C"] (by decide)⟩

/-- C4 (corrected).  Every bulk action of the main list — bulk move to an
existing bucket, bulk move to a new bucket, paste-selected — empties the
selection set, but none of them changes the `selectionMode` flag: the UI
stays in selection mode until the user explicitly exits. -/
theorem bulk_actions_selection (s : AppState) (bucketId : Nat) (name : String) :
    (moveBulkToExistingBucket bucketId s).selectedItems = [] ∧
    (moveBulkToExistingBucket bucketId s).selectionMode = s.selectionMode ∧
    (moveBulkToNewBucket bucketId name s).selectedItems = [] ∧
    (moveBulkToNewBucket bucketId name s).selectionMode = s.selectionMode ∧
    (pasteSelected s).selectedItems = [] ∧
    (pasteSelected s).selectionMode = s.selectionMode :=
  ⟨rfl, rfl, rfl, rfl, rfl, rfl⟩

/-- C4, counterexample to the claim as stated: from a selection-mode state
both bulk move and paste-selected leave `selectionMode` at `true` (the claim
demands a transition back to normal mode). -/
theorem bulk_actions_mode_cex :
    sC4.selectionMode = true ∧
    (moveBulkToExistingBucket 0 sC4).selectedItems = [] ∧
    (moveBulkToExistingBucket 0 sC4).selectionMode = true ∧
    (pasteSelected sC4).selectionMode = true := by decide

/-- C4, witness: the amended statement instantiated at `sC4`. -/
theorem bulk_actions_selection_witness :
    (moveBulkToExistingBucket 0 sC4).selectedItems = [] ∧
    (moveBulkToExistingBucket 0 sC4).selectionMode = sC4.selectionMode ∧
    (moveBulkToNewBucket 0 "N" sC4).selectedItems = [] ∧
    (moveBulkToNewBucket 0 "N" sC4).selectionMode = sC4.selectionMode ∧
    (pasteSelected sC4).selectedItems = [] ∧
    (pasteSelected sC4).selectionMode = sC4.selectionMode :=
  bulk_actions_selection sC4 0 "N"

/-- C5 (confirmed).  Moving a single text to an existing bucket turns the
target bucket's items into the text prepended to the prior items with every
prior occurrence filtered out — so the text occurs exactly once, as the
first element — and removes the text from the in-memory uncategorized list
and from the persisted history. -/
theorem moveToExistingBucket_spec (s : AppState) (text : String) (bucketId : Nat) (b : Bucket)
    (hb : b ∈ s.buckets) (hid : b.id = bucketId) :
    { b with items := text :: b.items.filter (fun i => i != text) }
        ∈ (moveToExistingBucket text bucketId s).buckets ∧
    (text :: b.items.filter (fun i => i != text)).count text = 1 ∧
    (text :: b.items.filter (fun i => i != text)).head? = some text ∧
    (moveToExistingBucket text bucketId s).uncategorized
      = s.uncategorized.filter (fun i => i != text) ∧
    text ∉ (moveToExistingBucket text bucketId s).uncategorized ∧
    (moveToExistingBucket text bucketId s).storage.history
      = s.storage.history.filter (fun i => i != text) ∧
    text ∉ (moveToExistingBucket text bucketId s).storage.history := by
  refine ⟨?_, ?_, rfl, rfl, ?_, rfl, ?_⟩
  · show { b with items := text :: b.items.filter (fun i => i != text) }
        ∈ s.buckets.map (fun bb =>
          if bb.id = bucketId then
            { bb with items := text :: bb.items.filter (fun i => i != text) }
          else bb)
    have := List.mem_map_of_mem (fun bb =>
      if bb.id = bucketId then { bb with items := text :: bb.items.filter (fun i => i != text) }
      else bb) hb
    simpa [hid] using this
  · rw [List.count_cons_self]
    have : (b.items.filter (fun i => i != text)).count text = 0 := by
      rw [List.count_eq_zero]
      intro hmem
      simpa using (List.mem_filter.mp hmem).2
    omega
  · simp [moveToExistingBucket, List.mem_filter]
  · simp [moveToExistingBucket, List.mem_filter]

/-- C5, witness: the statement instantiated at `sC5` moving `"A"` (already
present deeper in bucket 0) into bucket 0. -/
theorem moveToExistingBucket_spec_witness :
    (⟨0, "W", ["A", "B"]⟩ : Bucket) ∈ (moveToExistingBucket "A" 0 sC5).buckets ∧
    (["A", "B"] : List String).count "A" = 1 ∧
    (["A", "B"] : List String).head? = some "A" ∧
    (moveToExistingBucket "A" 0 sC5).uncategorized = ["X"] ∧
    "A" ∉ (moveToExistingBucket "A" 0 sC5).uncategorized ∧
    (moveToExistingBucket "A" 0 sC5).storage.history = ["X"] ∧
    "A" ∉ (moveToExistingBucket "A" 0 sC5).storage.history :=
  moveToExistingBucket_spec sC5 "A" 0 ⟨0, "W", ["B", "A"]⟩ (by decide) (by decide)

/-- C6 (confirmed).  Moving `text` into the bucket with id `bucketId` and
then removing it from that bucket leaves the bucket array equal to the
original with every occurrence of `text` filtered out of that bucket's
items, the relative order of the remaining items preserved and all other
buckets untouched. -/
theorem move_then_remove_idempotent (s : AppState) (text : String) (bucketId : Nat) :
    (removeFromBucket text bucketId (moveToExistingBucket text bucketId s)).buckets
      = s.buckets.map (fun b =>
          if b.id = bucketId then { b with items := b.items.filter (fun i => i != text) }
          else b) := by
  simp only [removeFromBucket, moveToExistingBucket, List.map_map]
  refine List.map_congr_left ?_
  intro b _
  by_cases h : b.id = bucketId
  · simp [Function.comp, h, List.filter_cons, List.filter_filter]
  · simp [Function.comp, h]

/-- C6, witness: the statement instantiated at `sC6`: bucket 0 loses its
copy of `"A"` keeping `"B"`, and bucket 1 keeps its own `"A"`. -/
theorem move_then_remove_idempotent_witness :
    (removeFromBucket "A" 0 (moveToExistingBucket "A" 0 sC6)).buckets
      = [⟨0, "W", ["B"]⟩, ⟨1, "Y", ["A"]⟩, ⟨2, "", []⟩, ⟨3, "", []⟩, ⟨4, "", []⟩] :=
  move_then_remove_idempotent sC6 "A" 0

/-- C7 (confirmed).  `load()` returns exactly 5 buckets: with nothing stored
it returns the 5 empty default buckets with ids 0..4; a shorter stored array
is padded at the end with buckets whose id equals their position, empty name
and empty items; a longer one is truncated to the first 5. -/
theorem loadBuckets_spec (parsed : List Bucket) :
    (∀ stored, (loadBuckets stored).length = BUCKET_COUNT) ∧
    loadBuckets none = defaultBuckets ∧
    defaultBuckets = [⟨0, "", []⟩, ⟨1, "", []⟩, ⟨2, "", []⟩, ⟨3, "", []⟩, ⟨4, "", []⟩] ∧
    (parsed.length ≤ BUCKET_COUNT →
      loadBuckets (some parsed) =
        parsed ++ (List.range' parsed.length (BUCKET_COUNT - parsed.length)).map
          (fun i => { id := i, name := "", items := [] })) ∧
    (BUCKET_COUNT ≤ parsed.length → loadBuckets (some parsed) = parsed.take BUCKET_COUNT) := by
  have hpad : ∀ p : List Bucket, padBucketsAux BUCKET_COUNT p =
      p ++ (List.range' p.length (BUCKET_COUNT - p.length)).map
        (fun i => { id := i, name := "", items := [] }) := fun p =>
    padBucketsAux_eq BUCKET_COUNT p (by omega)
  refine ⟨?_, rfl, by decide, ?_, ?_⟩
  · intro stored
    cases stored with
    | none => decide
    | some p =>
      simp only [loadBuckets, hpad, List.length_take, List.length_append, List.length_map,
        List.length_range']
      omega
  · intro hle
    have hlen : (parsed ++ (List.range' parsed.length (BUCKET_COUNT - parsed.length)).map
        (fun i => ({ id := i, name := "", items := [] } : Bucket))).length = BUCKET_COUNT := by
      simp only [List.length_append, List.length_map, List.length_range']
      omega
    simp only [loadBuckets, hpad]
    exact List.take_of_length_le (le_of_eq hlen)
  · intro hge
    simp only [loadBuckets, hpad, Nat.sub_eq_zero_of_le hge]
    simp

/-- C7, witness: the spec's scenario — a stored array of length 3 is padded
to 5 slots with ids 3 and 4, empty name, empty items. -/
theorem loadBuckets_spec_witness :
    pC7.length ≤ BUCKET_COUNT ∧
    loadBuckets (some pC7)
      = [⟨7, "N", ["x"]⟩, ⟨8, "M", []⟩, ⟨9, "P", []⟩, ⟨3, "", []⟩, ⟨4, "", []⟩] :=
  ⟨by decide, (loadBuckets_spec pC7).2.2.2.1 (by decide)⟩

/-- C8 (confirmed).  The confirmation-gated destructive operations: a
declined `deleteEntry` or `deleteBucket` returns the state unchanged
(buckets, uncategorized list and storage included); a confirmed
`deleteBucket` puts the slot `{id := b.id, name := "", items := []}` in
place of the targeted bucket `b`, keeps every slot's id, and keeps the slot
count at 5. -/
theorem delete_confirmation_spec (s : AppState) (text : String) (bucketId : Nat) (b : Bucket)
    (h5 : s.buckets.length = 5) (hb : b ∈ s.buckets) (hid : b.id = bucketId) :
    deleteEntry false text s = s ∧
    deleteBucket false bucketId s = s ∧
    ({ id := b.id, name := "", items := [] } : Bucket) ∈ (deleteBucket true bucketId s).buckets ∧
    (deleteBucket true bucketId s).buckets.map Bucket.id = s.buckets.map Bucket.id ∧
    (deleteBucket true bucketId s).buckets.length = 5 := by
  refine ⟨rfl, rfl, ?_, ?_, ?_⟩
  · show ({ id := b.id, name := "", items := [] } : Bucket)
        ∈ s.buckets.map (fun bb => if bb.id = bucketId then { bb with name := "", items := [] }
          else bb)
    have := List.mem_map_of_mem (fun bb =>
      if bb.id = bucketId then { bb with name := "", items := [] } else bb) hb
    simpa [hid] using this
  · show (s.buckets.map (fun bb => if bb.id = bucketId then { bb with name := "", items := [] }
        else bb)).map Bucket.id = s.buckets.map Bucket.id
    rw [List.map_map]
    refine List.map_congr_left ?_
    intro bb _
    by_cases h : bb.id = bucketId <;> simp [Function.comp, h]
  · show (s.buckets.map (fun bb => if bb.id = bucketId then { bb with name := "", items := [] }
        else bb)).length = 5
    rw [List.length_map, h5]

/-- C8, witness: the statement instantiated at `sC8`, declining and then
confirming the deletion of bucket 0. -/
theorem delete_confirmation_spec_witness :
    deleteEntry false "A" sC8 = sC8 ∧
    deleteBucket false 0 sC8 = sC8 ∧
    (⟨0, "", []⟩ : Bucket) ∈ (deleteBucket true 0 sC8).buckets ∧
    (deleteBucket true 0 sC8).buckets.map Bucket.id = sC8.buckets.map Bucket.id ∧
    (deleteBucket true 0 sC8).buckets.length = 5 :=
  delete_confirmation_spec sC8 "A" 0 ⟨0, "W", ["B"]⟩ (by decide) (by decide) (by decide)

/-- C9 (confirmed).  `removeFromBucket` persists only the updated bucket
array: the persisted history is left untouched, the demoted text is
prepended to the in-memory uncategorized list only, and the bucket array
written to storage is exactly the in-memory one with the text filtered out
of the targeted bucket. -/
theorem removeFromBucket_frame (s : AppState) (text : String) (bucketId : Nat) :
    (removeFromBucket text bucketId s).storage.history = s.storage.history ∧
    (removeFromBucket text bucketId s).uncategorized = text :: s.uncategorized ∧
    (removeFromBucket text bucketId s).storage.buckets
      = some (removeFromBucket text bucketId s).buckets ∧
    (removeFromBucket text bucketId s).buckets
      = s.buckets.map (fun b =>
          if b.id = bucketId then { b with items := b.items.filter (fun i => i != text) }
          else b) :=
  ⟨rfl, rfl, rfl, rfl⟩

/-- C9, witness: the statement instantiated at `sC9`, demoting `"A"` out of
bucket 1; the persisted history keeps its stale `"A"`. -/
theorem removeFromBucket_frame_witness :
    (removeFromBucket "A" 1 sC9).storage.history = sC9.storage.history ∧
    (removeFromBucket "A" 1 sC9).uncategorized = "A" :: sC9.uncategorized ∧
    (removeFromBucket "A" 1 sC9).storage.buckets = some (removeFromBucket "A" 1 sC9).buckets ∧
    (removeFromBucket "A" 1 sC9).buckets
      = [⟨0, "W", ["B"]⟩, ⟨1, "Y", ["B"]⟩, ⟨2, "", []⟩, ⟨3, "", []⟩, ⟨4, "", []⟩] :=
  removeFromBucket_frame sC9 "A" 1

/-- C10 (confirmed).  The bucket-scoped delete takes no confirmation input
(its embedding has no `confirmed` argument, unlike `deleteEntry` and
`deleteBucket`) and unconditionally filters the text out of the targeted
bucket's items and out of the persisted history, writing both; the
confirmation-gated operations are no-ops when declined. -/
theorem deleteEntryFromBucket_spec (s : AppState) (text : String) (bucketId : Nat) :
    (deleteEntryFromBucket text bucketId s).storage.history
      = s.storage.history.filter (fun i => i != text) ∧
    text ∉ (deleteEntryFromBucket text bucketId s).storage.history ∧
    ((deleteEntryFromBucket text bucketId s).buckets.all
        (fun b => !(b.id == bucketId) || !(b.items.contains text))) = true ∧
    (deleteEntryFromBucket text bucketId s).storage.buckets
      = some (deleteEntryFromBucket text bucketId s).buckets ∧
    deleteEntry false text s = s ∧
    deleteBucket false bucketId s = s := by
  refine ⟨rfl, ?_, ?_, rfl, rfl, rfl⟩
  · simp [deleteEntryFromBucket, List.mem_filter]
  · simp only [List.all_eq_true]
    intro b' hb'
    have : b' ∈ s.buckets.map (fun b =>
        if b.id = bucketId then { b with items := b.items.filter (fun i => i != text) }
        else b) := hb'
    obtain ⟨b, hb, rfl⟩ := List.mem_map.mp this
    by_cases h : b.id = bucketId
    · simp only [if_pos h]
      refine Bool.or_eq_true_iff.mpr (Or.inr ?_)
      simp [List.mem_filter]
    · simp [if_neg h, h]

/-- C10, witness: the statement instantiated at `sC10`, deleting `"A"` from
bucket 0 without any confirmation argument. -/
theorem deleteEntryFromBucket_spec_witness :
    (deleteEntryFromBucket "A" 0 sC10).storage.history = ["X"] ∧
    "A" ∉ (deleteEntryFromBucket "A" 0 sC10).storage.history ∧
    ((deleteEntryFromBucket "A" 0 sC10).buckets.all
        (fun b => !(b.id == 0) || !(b.items.contains "A"))) = true ∧
    (deleteEntryFromBucket "A" 0 sC10).storage.buckets
      = some (deleteEntryFromBucket "A" 0 sC10).buckets ∧
    deleteEntry false "A" sC10 = sC10 ∧
    deleteBucket false 0 sC10 = sC10 :=
  deleteEntryFromBucket_spec sC10 "A" 0

end CopyNotes
